import Mathlib

/-!
Verification of the rinha-2024 débitos/créditos backend.

The repository exposes two endpoints over a PostgreSQL store:

* `POST /clientes/:id/transacoes` — apply a credit (`'c'`) or debit (`'d'`)
  to an account, guarded by the overdraft limit;
* `GET /clientes/:id/extrato` — return balance, limit, a timestamp and the
  last 10 ledger entries, newest first.

`app/index.js` contains two variants of the handlers:

* an inline-SQL variant (`SELECT ... FOR UPDATE`, update, insert, commit);
* a stored-procedure variant delegating to the PL/pgSQL functions
  `process_transaction` and `get_extrato`.

This file embeds the database state, the two stored functions, the inline-SQL
transaction core and all four HTTP handlers, and proves the specified
properties about them.
-/

namespace Rinha

/-- The transaction `type` column: `'c'` (credit) or `'d'` (debit). -/
inductive TType where
  | c
  | d
deriving DecidableEq

/-- One row of the `accounts` table: columns `balance` and `account_limit`
(the id is the key of the accounts map). -/
structure Account where
  balance : Int
  account_limit : Int
deriving DecidableEq

/-- One row of the append-only `transactions` table. -/
structure LedgerEntry where
  account_id : Int
  amount : Int
  type : TType
  description : String
  created_at : Nat
deriving DecidableEq

/-- The database state: the `accounts` table keyed by id, and the
`transactions` table as a list in insertion (serial id / `created_at`)
order, oldest first. -/
structure DBState where
  accounts : Int → Option Account
  transactions : List LedgerEntry

/-- `CASE WHEN p_type = 'c' THEN p_amount ELSE -p_amount END`. -/
def delta : TType → Int → Int
  | .c, v => v
  | .d, v => -v

/-- `UPDATE accounts SET balance = nb WHERE id = id0`, as a map update. -/
def sqlUpdateBalance (accounts : Int → Option Account) (id0 nb : Int) :
    Int → Option Account :=
  fun i => if i = id0 then (accounts i).map (fun a => { a with balance := nb }) else accounts i

/-- The PL/pgSQL stored function `process_transaction` (stored-procedure
variant): a single `UPDATE accounts SET balance = balance + delta WHERE id =
p_account_id AND (p_type = 'c' OR balance - p_amount >= -account_limit)`,
chained with an `INSERT INTO transactions` that fires only when the update
matched a row.  Returns the new `(saldo, limite)` on success and `none`
(the `{"error": 1}` JSON) when the account is missing or a debit would
breach the limit; in the error case the state is untouched. -/
def process_transaction (st : DBState) (p_account_id p_amount : Int) (p_type : TType)
    (p_description : String) (now : Nat) : DBState × Option (Int × Int) :=
  match st.accounts p_account_id with
  | none => (st, none)
  | some a =>
    if p_type = TType.c ∨ -a.account_limit ≤ a.balance - p_amount then
      let nb := a.balance + delta p_type p_amount
      (⟨sqlUpdateBalance st.accounts p_account_id nb,
        st.transactions ++ [⟨p_account_id, p_amount, p_type, p_description, now⟩]⟩,
       some (nb, a.account_limit))
    else (st, none)

/-- Outcome of the inline-SQL transaction section, distinguishing the three
exits of the database block of the handler. -/
inductive TxOutcome where
  | notFound
  | limitExceeded
  | ok (saldo limite : Int)
deriving DecidableEq

/-- The database section of the inline-SQL `POST /clientes/:id/transacoes`
handler: `SELECT ... FOR UPDATE`; 404/rollback when no row; for a debit,
rollback with `Limite excedido` when the new balance falls below
`-account_limit`; otherwise `UPDATE` the balance and `INSERT` one ledger
row, then commit. -/
def inlineTxCore (st : DBState) (now : Nat) (clientId valor : Int) (tipo : TType)
    (descricao : String) : DBState × TxOutcome :=
  match st.accounts clientId with
  | none => (st, .notFound)
  | some a =>
    match tipo with
    | .c =>
      let nb := a.balance + valor
      (⟨sqlUpdateBalance st.accounts clientId nb,
        st.transactions ++ [⟨clientId, valor, .c, descricao, now⟩]⟩,
       .ok nb a.account_limit)
    | .d =>
      let nb := a.balance - valor
      if nb < -a.account_limit then (st, .limitExceeded)
      else
        (⟨sqlUpdateBalance st.accounts clientId nb,
          st.transactions ++ [⟨clientId, valor, .d, descricao, now⟩]⟩,
         .ok nb a.account_limit)

/-- A JavaScript number as far as the handlers observe it: `NaN`,
`±Infinity`, an integer-valued number, or a finite non-integer number
carrying its truncation toward zero. -/
inductive JSNum where
  | nan
  | inf
  | int (n : Int)
  | frac (trunc : Int)
deriving DecidableEq

/-- `Number.isInteger`. -/
def JSNum.isInteger : JSNum → Bool
  | .int _ => true
  | _ => false

/-- Fold of an integer into the signed 32-bit range, as `ToInt32` does. -/
def wrap32 (n : Int) : Int :=
  let m := n % (2 ^ 32)
  if m < 2 ^ 31 then m else m - 2 ^ 32

/-- The `| 0` coercion applied to a JS number: `ToInt32`.  `NaN` and
`±Infinity` become `0`; finite numbers are truncated and folded into the
signed 32-bit range. -/
def toInt32 : JSNum → Int
  | .nan => 0
  | .inf => 0
  | .int n => wrap32 n
  | .frac t => wrap32 t

/-- The JSON body of a transaction request as the handler observes it:
`none` in `valor` models a non-number value, `none` in `tipo`/`descricao`
models a non-string value. -/
structure ReqBody where
  valor : Option JSNum
  tipo : Option String
  descricao : Option String
deriving DecidableEq

/-- What a `POST` handler produced: the resulting database state, the HTTP
status, the optional `limite`/`saldo` response fields, and whether the
request got past validation to the transaction-processing code. -/
structure HandlerResult where
  st : DBState
  status : Nat
  limite : Option Int
  saldo : Option Int
  processorInvoked : Bool

/-- The handlers map the validated `tipo` token to a transaction type. -/
def strToTType (t : String) : TType :=
  if t = "c" then .c else .d

/-- `POST /clientes/:id/transacoes`, inline-SQL variant: validates that the
path id coerces to an integer, `valor` is a positive integer, `tipo` is
`'c'` or `'d'` and `descricao` is a string of length 1..10 (no range check
on the id), answering 422 on failure; otherwise runs the inline transaction
block and maps not-found to 404, limit-exceeded to 422 and success to 200
with `{limite, saldo}`. -/
def postTransacoesInline (st : DBState) (now : Nat) (idParam : JSNum) (b : ReqBody) :
    HandlerResult :=
  match idParam, b.valor, b.tipo, b.descricao with
  | .int n, some (.int v), some t, some desc =>
    if 0 < v ∧ (t = "c" ∨ t = "d") ∧ 1 ≤ desc.length ∧ desc.length ≤ 10 then
      let r := inlineTxCore st now n v (strToTType t) desc
      match r.2 with
      | .notFound => ⟨r.1, 404, none, none, true⟩
      | .limitExceeded => ⟨r.1, 422, none, none, true⟩
      | .ok saldo limite => ⟨r.1, 200, some limite, some saldo, true⟩
    else ⟨st, 422, none, none, false⟩
  | _, _, _, _ => ⟨st, 422, none, none, false⟩

/-- `POST /clientes/:id/transacoes`, stored-procedure variant: additionally
requires the id to be in 1..5; calls `process_transaction` and maps its
error JSON to 422 and success to 200 with `{limite, saldo}`. -/
def postTransacoesStored (st : DBState) (now : Nat) (idParam : JSNum) (b : ReqBody) :
    HandlerResult :=
  match idParam, b.valor, b.tipo, b.descricao with
  | .int n, some (.int v), some t, some desc =>
    if 0 < n ∧ n ≤ 5 ∧ 0 < v ∧ (t = "c" ∨ t = "d") ∧ 1 ≤ desc.length ∧ desc.length ≤ 10 then
      let r := process_transaction st n v (strToTType t) desc now
      match r.2 with
      | none => ⟨r.1, 422, none, none, true⟩
      | some (saldo, limite) => ⟨r.1, 200, some limite, some saldo, true⟩
    else ⟨st, 422, none, none, false⟩
  | _, _, _, _ => ⟨st, 422, none, none, false⟩

/-- Response of a `GET /clientes/:id/extrato` handler. -/
structure ExtratoResult where
  status : Nat
  total : Option Int
  limite : Option Int
  data_extrato : Option Nat
  ultimas_transacoes : List LedgerEntry
deriving DecidableEq

/-- `SELECT ... FROM transactions WHERE account_id = id0 ORDER BY id DESC
LIMIT 10`: ids are serials assigned in insertion order, so descending id
order is the reverse of the insertion-ordered list. -/
def lastTransactions (st : DBState) (id0 : Int) : List LedgerEntry :=
  ((st.transactions.filter (fun e => e.account_id = id0)).reverse).take 10

/-- The PL/pgSQL stored function `get_extrato`: `none` when the account does
not exist, otherwise the balance, limit, `NOW()` and the last 10 ledger
entries newest first. -/
def get_extrato (st : DBState) (now : Nat) (p_account_id : Int) :
    Option (Int × Int × Nat × List LedgerEntry) :=
  match st.accounts p_account_id with
  | none => none
  | some a => some (a.balance, a.account_limit, now, lastTransactions st p_account_id)

/-- `GET /clientes/:id/extrato`, inline-SQL variant: coerces the path
parameter with `| 0`, rejects with 422 if the result is not an integer
(which can never happen), answers 404 when the account row is missing and
otherwise 200 with balance, limit, `NOW()` and the last 10 entries. -/
def getExtratoInline (st : DBState) (now : Nat) (idParam : JSNum) : ExtratoResult :=
  let clientId : Int := toInt32 idParam
  if ¬ (JSNum.int clientId).isInteger then
    ⟨422, none, none, none, []⟩
  else
    match st.accounts clientId with
    | none => ⟨404, none, none, none, []⟩
    | some a => ⟨200, some a.balance, some a.account_limit, some now, lastTransactions st clientId⟩

/-- `GET /clientes/:id/extrato`, stored-procedure variant: 404 unless the id
is an integer in 1..5, then `get_extrato`, with `NULL` mapped to 404. -/
def getExtratoStored (st : DBState) (now : Nat) (idParam : JSNum) : ExtratoResult :=
  match idParam with
  | .int n =>
    if 0 < n ∧ n ≤ 5 then
      match get_extrato st now n with
      | none => ⟨404, none, none, none, []⟩
      | some (b, l, ts, txs) => ⟨200, some b, some l, some ts, txs⟩
    else ⟨404, none, none, none, []⟩
  | _ => ⟨404, none, none, none, []⟩

/-- The `valor` field check of both POST handlers:
`Number.isInteger(valor) && valor > 0`. -/
def validValor : Option JSNum → Bool
  | some (.int v) => decide (0 < v)
  | _ => false

/-- The `descricao` field check of both POST handlers: a string of length
1..10. -/
def validDescricao : Option String → Bool
  | some s => decide (1 ≤ s.length) && decide (s.length ≤ 10)
  | none => false

/-- The body check shared by both POST handlers. -/
def bodyValid (b : ReqBody) : Bool :=
  validValor b.valor && (b.tipo = some "c" || b.tipo = some "d") && validDescricao b.descricao

/-- The full validation of the inline-SQL POST handler: the id coerces to an
integer and the body is valid (no range check on the id). -/
def inlineReqValid (idParam : JSNum) (b : ReqBody) : Bool :=
  idParam.isInteger && bodyValid b

/-- The id check of the stored-procedure variant: an integer in 1..5. -/
def storedIdValid : JSNum → Bool
  | .int n => decide (0 < n) && decide (n ≤ 5)
  | _ => false

/-- The full validation of the stored-procedure POST handler. -/
def storedReqValid (idParam : JSNum) (b : ReqBody) : Bool :=
  storedIdValid idParam && bodyValid b

/-- The per-account overdraft invariant, over the whole accounts table. -/
def AccountsInv (st : DBState) : Prop :=
  ∀ i a, st.accounts i = some a → -a.account_limit ≤ a.balance

/-- Sequential application of transaction requests through
`process_transaction`; `none` as soon as one of them fails. -/
def applyTxs (id0 : Int) (now : Nat) : DBState → List (TType × Int × String) → Option DBState
  | st, [] => some st
  | st, (t, v, d) :: rest =>
    match (process_transaction st id0 v t d now).2 with
    | some _ => applyTxs id0 now (process_transaction st id0 v t d now).1 rest
    | none => none

/-- Sum of the credited amounts of a request list. -/
def sumCredits : List (TType × Int × String) → Int
  | [] => 0
  | (TType.c, v, _) :: rest => v + sumCredits rest
  | (TType.d, _, _) :: rest => sumCredits rest

/-- Sum of the debited amounts of a request list. -/
def sumDebits : List (TType × Int × String) → Int
  | [] => 0
  | (TType.c, _, _) :: rest => sumDebits rest
  | (TType.d, v, _) :: rest => v + sumDebits rest

/-- A concrete seed state: account 1 with balance 0 and limit 1000, no other
accounts, empty ledger. -/
def demoState : DBState :=
  ⟨fun i => if i = 1 then some ⟨0, 1000⟩ else none, []⟩

/-- A concrete ledger: two entries for account 1, oldest first. -/
def demoEntries : List LedgerEntry :=
  [⟨1, 10, TType.c, "a", 1⟩, ⟨1, 5, TType.d, "b", 2⟩]

/-- A concrete state where account 1 has balance 5, limit 1000 and the two
ledger entries of `demoEntries`. -/
def demoStateTx : DBState :=
  ⟨fun i => if i = 1 then some ⟨5, 1000⟩ else none, demoEntries⟩

theorem demoState_inv : AccountsInv demoState := by
  intro i a h
  unfold demoState at h
  by_cases hi : i = 1 <;> simp [hi] at h
  · cases h; decide

theorem sqlUpdateBalance_self (acc : Int → Option Account) (id0 nb : Int) :
    sqlUpdateBalance acc id0 nb id0 = (acc id0).map (fun a => { a with balance := nb }) := by
  simp [sqlUpdateBalance]

theorem sqlUpdateBalance_ne (acc : Int → Option Account) (id0 nb i : Int) (h : i ≠ id0) :
    sqlUpdateBalance acc id0 nb i = acc i := by
  simp [sqlUpdateBalance, h]

theorem process_transaction_not_found (st : DBState) (id v : Int) (t : TType) (d : String)
    (now : Nat) (h : st.accounts id = none) :
    process_transaction st id v t d now = (st, none) := by
  simp [process_transaction, h]

theorem process_transaction_ok (st : DBState) (id v : Int) (t : TType) (d : String) (now : Nat)
    (a : Account) (ha : st.accounts id = some a)
    (hc : t = TType.c ∨ -a.account_limit ≤ a.balance - v) :
    process_transaction st id v t d now =
      (⟨sqlUpdateBalance st.accounts id (a.balance + delta t v),
        st.transactions ++ [⟨id, v, t, d, now⟩]⟩,
       some (a.balance + delta t v, a.account_limit)) := by
  simp only [process_transaction, ha]
  rw [if_pos hc]

theorem process_transaction_rejected (st : DBState) (id v : Int) (t : TType) (d : String)
    (now : Nat) (a : Account) (ha : st.accounts id = some a)
    (hc : ¬ (t = TType.c ∨ -a.account_limit ≤ a.balance - v)) :
    process_transaction st id v t d now = (st, none) := by
  simp only [process_transaction, ha]
  rw [if_neg hc]

theorem process_transaction_inv (st : DBState) (id v : Int) (t : TType) (d : String) (now : Nat)
    (hv : 0 ≤ v) (hinv : AccountsInv st) :
    AccountsInv (process_transaction st id v t d now).1 := by
  intro i a' h'
  cases ha : st.accounts id with
  | none =>
    rw [process_transaction_not_found st id v t d now ha] at h'
    exact hinv i a' h'
  | some a =>
    by_cases hc : t = TType.c ∨ -a.account_limit ≤ a.balance - v
    · rw [process_transaction_ok st id v t d now a ha hc] at h'
      dsimp only at h'
      by_cases hi : i = id
      · subst hi
        rw [sqlUpdateBalance_self, ha] at h'
        simp only [Option.map_some'] at h'
        cases h'
        have hb := hinv i a ha
        cases t with
        | c => simp only [delta]; omega
        | d =>
          have hd : -a.account_limit ≤ a.balance - v := by
            rcases hc with hc | hc
            · exact absurd hc (by simp)
            · exact hc
          simp only [delta]; omega
      · rw [sqlUpdateBalance_ne _ _ _ _ hi] at h'
        exact hinv i a' h'
    · rw [process_transaction_rejected st id v t d now a ha hc] at h'
      exact hinv i a' h'

theorem inlineTxCore_not_found (st : DBState) (now : Nat) (id v : Int) (t : TType) (d : String)
    (h : st.accounts id = none) :
    inlineTxCore st now id v t d = (st, .notFound) := by
  simp [inlineTxCore, h]

theorem inlineTxCore_credit (st : DBState) (now : Nat) (id v : Int) (d : String)
    (a : Account) (ha : st.accounts id = some a) :
    inlineTxCore st now id v TType.c d =
      (⟨sqlUpdateBalance st.accounts id (a.balance + v),
        st.transactions ++ [⟨id, v, TType.c, d, now⟩]⟩,
       .ok (a.balance + v) a.account_limit) := by
  simp [inlineTxCore, ha]

theorem inlineTxCore_debit_ok (st : DBState) (now : Nat) (id v : Int) (d : String)
    (a : Account) (ha : st.accounts id = some a)
    (h : -a.account_limit ≤ a.balance - v) :
    inlineTxCore st now id v TType.d d =
      (⟨sqlUpdateBalance st.accounts id (a.balance - v),
        st.transactions ++ [⟨id, v, TType.d, d, now⟩]⟩,
       .ok (a.balance - v) a.account_limit) := by
  have h' : ¬ (a.balance - v < -a.account_limit) := by omega
  simp [inlineTxCore, ha, h']

theorem inlineTxCore_limit_exceeded (st : DBState) (now : Nat) (id v : Int) (d : String)
    (a : Account) (ha : st.accounts id = some a)
    (h : a.balance - v < -a.account_limit) :
    inlineTxCore st now id v TType.d d = (st, .limitExceeded) := by
  simp [inlineTxCore, ha, h]

theorem inlineTxCore_inv (st : DBState) (now : Nat) (id v : Int) (t : TType) (d : String)
    (hv : 0 ≤ v) (hinv : AccountsInv st) :
    AccountsInv (inlineTxCore st now id v t d).1 := by
  intro i a' h'
  cases ha : st.accounts id with
  | none =>
    rw [inlineTxCore_not_found st now id v t d ha] at h'
    exact hinv i a' h'
  | some a =>
    cases t with
    | c =>
      rw [inlineTxCore_credit st now id v d a ha] at h'
      dsimp only at h'
      by_cases hi : i = id
      · subst hi
        rw [sqlUpdateBalance_self, ha] at h'
        simp only [Option.map_some'] at h'
        cases h'
        have hb := hinv i a ha
        dsimp only
        omega
      · rw [sqlUpdateBalance_ne _ _ _ _ hi] at h'
        exact hinv i a' h'
    | d =>
      by_cases hlim : a.balance - v < -a.account_limit
      · rw [inlineTxCore_limit_exceeded st now id v d a ha hlim] at h'
        exact hinv i a' h'
      · rw [inlineTxCore_debit_ok st now id v d a ha (by omega)] at h'
        dsimp only at h'
        by_cases hi : i = id
        · subst hi
          rw [sqlUpdateBalance_self, ha] at h'
          simp only [Option.map_some'] at h'
          cases h'
          dsimp only
          omega
        · rw [sqlUpdateBalance_ne _ _ _ _ hi] at h'
          exact hinv i a' h'

/-- **C1**: every transaction-processing operation (both the
`process_transaction` stored function and the inline-SQL transaction block)
preserves the invariant `balance >= -account_limit` over the whole accounts
table, and a debit whose post-transaction balance would fall below
`-account_limit` is rejected — `process_transaction` returns its error
result and the inline block returns `Limite excedido` — leaving the state
untouched. -/
theorem c1_overdraft_invariant (st : DBState) (id v : Int) (t : TType) (d : String) (now : Nat)
    (hv : 0 < v) (hinv : AccountsInv st) :
    AccountsInv (process_transaction st id v t d now).1 ∧
    AccountsInv (inlineTxCore st now id v t d).1 ∧
    (∀ a, st.accounts id = some a → a.balance - v < -a.account_limit →
      process_transaction st id v TType.d d now = (st, none) ∧
      inlineTxCore st now id v TType.d d = (st, TxOutcome.limitExceeded)) := by
  refine ⟨process_transaction_inv st id v t d now (le_of_lt hv) hinv,
          inlineTxCore_inv st now id v t d (le_of_lt hv) hinv, ?_⟩
  intro a ha hlt
  constructor
  · refine process_transaction_rejected st id v TType.d d now a ha ?_
    rintro (hc | hc)
    · exact absurd hc (by simp)
    · omega
  · exact inlineTxCore_limit_exceeded st now id v d a ha hlt

theorem c1_overdraft_invariant_witness :
    AccountsInv (process_transaction demoState 1 2000 TType.d "x" 0).1 ∧
    process_transaction demoState 1 2000 TType.d "x" 0 = (demoState, none) ∧
    inlineTxCore demoState 0 1 2000 TType.d "x" = (demoState, TxOutcome.limitExceeded) := by
  have h := c1_overdraft_invariant demoState 1 2000 TType.d "x" 0 (by decide) demoState_inv
  have h3 := h.2.2 ⟨0, 1000⟩ rfl (by decide)
  exact ⟨h.1, h3.1, h3.2⟩

/-- **C2**: each call of the transaction-processing operation either performs
both the balance update and the insertion of exactly one ledger entry, or
performs neither: on the error outcomes (account not found, limit exceeded)
the state is returned unchanged, and on success the ledger grows by exactly
the one new entry while the balance of the account is updated. -/
theorem c2_atomicity (st : DBState) (id v : Int) (t : TType) (d : String) (now : Nat) :
    ((process_transaction st id v t d now).2 = none →
      (process_transaction st id v t d now).1 = st) ∧
    (∀ r, (process_transaction st id v t d now).2 = some r →
      (process_transaction st id v t d now).1.transactions
        = st.transactions ++ [⟨id, v, t, d, now⟩] ∧
      ∃ a, st.accounts id = some a ∧
        (process_transaction st id v t d now).1.accounts id
          = some { a with balance := a.balance + delta t v }) ∧
    ((inlineTxCore st now id v t d).2 = TxOutcome.notFound ∨
      (inlineTxCore st now id v t d).2 = TxOutcome.limitExceeded →
      (inlineTxCore st now id v t d).1 = st) ∧
    (∀ s l, (inlineTxCore st now id v t d).2 = TxOutcome.ok s l →
      (inlineTxCore st now id v t d).1.transactions
        = st.transactions ++ [⟨id, v, t, d, now⟩] ∧
      ∃ a, st.accounts id = some a ∧
        (inlineTxCore st now id v t d).1.accounts id = some { a with balance := s }) := by
  refine ⟨?_, ?_, ?_, ?_⟩
  · intro h
    cases ha : st.accounts id with
    | none => rw [process_transaction_not_found st id v t d now ha]
    | some a =>
      by_cases hc : t = TType.c ∨ -a.account_limit ≤ a.balance - v
      · rw [process_transaction_ok st id v t d now a ha hc] at h
        exact absurd h (by simp)
      · rw [process_transaction_rejected st id v t d now a ha hc]
  · intro r h
    cases ha : st.accounts id with
    | none =>
      rw [process_transaction_not_found st id v t d now ha] at h
      exact absurd h (by simp)
    | some a =>
      by_cases hc : t = TType.c ∨ -a.account_limit ≤ a.balance - v
      · rw [process_transaction_ok st id v t d now a ha hc]
        refine ⟨rfl, a, rfl, ?_⟩
        dsimp only
        rw [sqlUpdateBalance_self, ha]
        rfl
      · rw [process_transaction_rejected st id v t d now a ha hc] at h
        exact absurd h (by simp)
  · intro h
    cases ha : st.accounts id with
    | none => rw [inlineTxCore_not_found st now id v t d ha]
    | some a =>
      cases t with
      | c =>
        rw [inlineTxCore_credit st now id v d a ha] at h
        rcases h with h | h <;> exact absurd h (by simp)
      | d =>
        by_cases hlim : a.balance - v < -a.account_limit
        · rw [inlineTxCore_limit_exceeded st now id v d a ha hlim]
        · rw [inlineTxCore_debit_ok st now id v d a ha (by omega)] at h
          rcases h with h | h <;> exact absurd h (by simp)
  · intro s l h
    cases ha : st.accounts id with
    | none =>
      rw [inlineTxCore_not_found st now id v t d ha] at h
      exact absurd h (by simp)
    | some a =>
      cases t with
      | c =>
        rw [inlineTxCore_credit st now id v d a ha] at h
        simp only [TxOutcome.ok.injEq] at h
        rw [inlineTxCore_credit st now id v d a ha]
        refine ⟨rfl, a, rfl, ?_⟩
        dsimp only
        rw [sqlUpdateBalance_self, ha]
        simp [h.1]
      | d =>
        by_cases hlim : a.balance - v < -a.account_limit
        · rw [inlineTxCore_limit_exceeded st now id v d a ha hlim] at h
          exact absurd h (by simp)
        · rw [inlineTxCore_debit_ok st now id v d a ha (by omega)] at h
          simp only [TxOutcome.ok.injEq] at h
          rw [inlineTxCore_debit_ok st now id v d a ha (by omega)]
          refine ⟨rfl, a, rfl, ?_⟩
          dsimp only
          rw [sqlUpdateBalance_self, ha]
          simp [h.1]

theorem c2_atomicity_witness :
    (process_transaction demoState 9 10 TType.c "x" 0).2 = none ∧
    (process_transaction demoState 9 10 TType.c "x" 0).1 = demoState ∧
    (process_transaction demoState 1 10 TType.c "x" 0).2 = some (10, 1000) ∧
    (process_transaction demoState 1 10 TType.c "x" 0).1.transactions
      = demoState.transactions ++ [⟨1, 10, TType.c, "x", 0⟩] := by
  have h9 := (c2_atomicity demoState 9 10 TType.c "x" 0).1 (by decide)
  have h1 := ((c2_atomicity demoState 1 10 TType.c "x" 0).2.1 (10, 1000) (by decide)).1
  exact ⟨by decide, h9, by decide, h1⟩

/-- **C9**: for an existing account a credit (`'c'`) transaction always
succeeds, whatever the current balance and amount — the overdraft check only
constrains debits — and the inline transaction block can only signal
`Limite excedido` when the type is `'d'`. -/
theorem c9_credit_always_succeeds (st : DBState) (id v : Int) (d : String) (now : Nat)
    (a : Account) (ha : st.accounts id = some a) :
    (process_transaction st id v TType.c d now).2 = some (a.balance + v, a.account_limit) ∧
    (inlineTxCore st now id v TType.c d).2 = TxOutcome.ok (a.balance + v) a.account_limit ∧
    (∀ (t : TType) (v' : Int),
      (inlineTxCore st now id v' t d).2 = TxOutcome.limitExceeded → t = TType.d) := by
  refine ⟨?_, ?_, ?_⟩
  · rw [process_transaction_ok st id v TType.c d now a ha (Or.inl rfl)]
    rfl
  · rw [inlineTxCore_credit st now id v d a ha]
  · intro t v' h
    cases t with
    | d => rfl
    | c =>
      rw [inlineTxCore_credit st now id v' d a ha] at h
      exact absurd h (by simp)

theorem c9_credit_always_succeeds_witness :
    (process_transaction demoState 1 7 TType.c "x" 0).2 = some (7, 1000) ∧
    (inlineTxCore demoState 0 1 7 TType.c "x").2 = TxOutcome.ok 7 1000 := by
  have h := c9_credit_always_succeeds demoState 1 7 "x" 0 ⟨0, 1000⟩ rfl
  exact ⟨h.1, h.2.1⟩

/-- **C3**: for an existing account and a validated request (positive integer
`valor`, `tipo` `'c'` or `'d'`, `descricao` of length 1..10), a successful
transaction through the inline-SQL POST handler answers 200 with the
post-transaction balance in `saldo` and the credit limit in `limite`: old
balance plus `valor` for a credit, old balance minus `valor` for a debit. -/
theorem c3_success_response (st : DBState) (now : Nat) (n v : Int) (desc : String) (a : Account)
    (ha : st.accounts n = some a) (hv : 0 < v)
    (hd : 1 ≤ desc.length ∧ desc.length ≤ 10) :
    ((postTransacoesInline st now (.int n) ⟨some (.int v), some "c", some desc⟩).status = 200 ∧
      (postTransacoesInline st now (.int n) ⟨some (.int v), some "c", some desc⟩).saldo
        = some (a.balance + v) ∧
      (postTransacoesInline st now (.int n) ⟨some (.int v), some "c", some desc⟩).limite
        = some a.account_limit) ∧
    (-a.account_limit ≤ a.balance - v →
      (postTransacoesInline st now (.int n) ⟨some (.int v), some "d", some desc⟩).status = 200 ∧
      (postTransacoesInline st now (.int n) ⟨some (.int v), some "d", some desc⟩).saldo
        = some (a.balance - v) ∧
      (postTransacoesInline st now (.int n) ⟨some (.int v), some "d", some desc⟩).limite
        = some a.account_limit) := by
  have hc : strToTType "c" = TType.c := by decide
  have hdd : strToTType "d" = TType.d := by decide
  constructor
  · simp only [postTransacoesInline]
    split_ifs with hcond
    · rw [hc, inlineTxCore_credit st now n v desc a ha]
      exact ⟨rfl, rfl, rfl⟩
    · exact absurd ⟨hv, Or.inl trivial, hd.1, hd.2⟩ hcond
  · intro hlim
    simp only [postTransacoesInline]
    split_ifs with hcond
    · rw [hdd, inlineTxCore_debit_ok st now n v desc a ha hlim]
      exact ⟨rfl, rfl, rfl⟩
    · exact absurd ⟨hv, Or.inr trivial, hd.1, hd.2⟩ hcond

theorem c3_success_response_witness :
    (postTransacoesInline demoState 0 (.int 1) ⟨some (.int 10), some "c", some "x"⟩).status = 200 ∧
    (postTransacoesInline demoState 0 (.int 1) ⟨some (.int 10), some "c", some "x"⟩).saldo
      = some 10 ∧
    (postTransacoesInline demoState 0 (.int 1) ⟨some (.int 10), some "d", some "x"⟩).saldo
      = some (-10) := by
  have h := c3_success_response demoState 0 1 10 "x" ⟨0, 1000⟩ rfl (by decide) (by decide)
  have h2 := h.2 (by decide)
  exact ⟨h.1.1, h.1.2.1, h2.2.1⟩

/-- **C10**: in the inline-SQL statement handler the 422 branch is dead: the
`| 0` coercion always yields an integer (`NaN`, i.e. a non-numeric id,
becomes 0), so every request passes the integer check; the handler answers
only 200 or 404, and a coerced id matching no account row yields 404. -/
theorem c10_extrato_dead_branch (st : DBState) (now : Nat) (j : JSNum) :
    (getExtratoInline st now j).status ≠ 422 ∧
    ((getExtratoInline st now j).status = 200 ∨ (getExtratoInline st now j).status = 404) ∧
    toInt32 JSNum.nan = 0 ∧
    (st.accounts (toInt32 j) = none → (getExtratoInline st now j).status = 404) := by
  cases hacc : st.accounts (toInt32 j) with
  | none =>
    have hred : getExtratoInline st now j = ⟨404, none, none, none, []⟩ := by
      simp [getExtratoInline, JSNum.isInteger, hacc]
    rw [hred]
    exact ⟨by decide, Or.inr rfl, rfl, fun _ => rfl⟩
  | some a =>
    have hred : getExtratoInline st now j
        = ⟨200, some a.balance, some a.account_limit, some now,
           lastTransactions st (toInt32 j)⟩ := by
      simp [getExtratoInline, JSNum.isInteger, hacc]
    rw [hred]
    refine ⟨by simp, Or.inl rfl, rfl, ?_⟩
    intro h
    exact absurd h (by simp)

theorem c10_extrato_dead_branch_witness :
    (getExtratoInline demoState 0 JSNum.nan).status = 404 ∧
    (getExtratoInline demoState 0 JSNum.nan).status ≠ 422 := by
  have h := c10_extrato_dead_branch demoState 0 JSNum.nan
  exact ⟨h.2.2.2 rfl, h.1⟩

theorem wrap32_eq_self (n : Int) (h0 : 0 ≤ n) (h1 : n < 2 ^ 31) : wrap32 n = n := by
  unfold wrap32
  rw [Int.emod_eq_of_lt h0 (by omega)]
  exact if_pos h1

/-- **C6**: for an existing account the statement operation returns the
current balance, the credit limit and the statement timestamp, together with
the at-most-10 most recent ledger entries of that account, newest first in
insertion order: the i-th returned entry is the (i+1)-th newest matching
entry, the count is `min 10` of the entry count of the account (so an account
with fewer than 10 transactions gets exactly that many), and the inline-SQL
handler serves exactly this payload with status 200. -/
theorem c6_statement_assembly (st : DBState) (now : Nat) (id0 : Int) (a : Account)
    (ha : st.accounts id0 = some a) :
    get_extrato st now id0 = some (a.balance, a.account_limit, now, lastTransactions st id0) ∧
    (∀ e ∈ lastTransactions st id0, e.account_id = id0) ∧
    (lastTransactions st id0).length
      = min 10 (st.transactions.filter (fun e => e.account_id = id0)).length ∧
    ((st.transactions.filter (fun e => e.account_id = id0)).length < 10 →
      (lastTransactions st id0).length
        = (st.transactions.filter (fun e => e.account_id = id0)).length) ∧
    (∀ i : Nat, i < (lastTransactions st id0).length →
      (lastTransactions st id0)[i]?
        = (st.transactions.filter (fun e => e.account_id = id0))[
            (st.transactions.filter (fun e => e.account_id = id0)).length - 1 - i]?) ∧
    (0 ≤ id0 → id0 < 2 ^ 31 →
      getExtratoInline st now (JSNum.int id0)
        = ⟨200, some a.balance, some a.account_limit, some now, lastTransactions st id0⟩) := by
  refine ⟨by simp [get_extrato, ha], ?_, ?_, ?_, ?_, ?_⟩
  · intro e he
    have h1 : e ∈ (st.transactions.filter (fun e => e.account_id = id0)).reverse :=
      List.take_subset _ _ he
    rw [List.mem_reverse] at h1
    have h2 := List.of_mem_filter h1
    exact of_decide_eq_true h2
  · simp [lastTransactions]
  · intro hlt
    simp [lastTransactions]
    omega
  · intro i hi
    have hlen : (lastTransactions st id0).length
        = min 10 (st.transactions.filter (fun e => e.account_id = id0)).length := by
      simp [lastTransactions]
    rw [hlen] at hi
    unfold lastTransactions
    rw [List.getElem?_take_of_lt (by omega)]
    rw [List.getElem?_reverse (by omega)]
  · intro h0 h1
    have hw : toInt32 (JSNum.int id0) = id0 := by
      simp [toInt32, wrap32_eq_self id0 h0 h1]
    simp [getExtratoInline, JSNum.isInteger, hw, ha]

theorem c6_statement_assembly_witness :
    get_extrato demoStateTx 7 1 = some (5, 1000, 7, lastTransactions demoStateTx 1) ∧
    (lastTransactions demoStateTx 1).length = 2 ∧
    getExtratoInline demoStateTx 7 (JSNum.int 1)
      = ⟨200, some 5, some 1000, some 7, lastTransactions demoStateTx 1⟩ := by
  have h := c6_statement_assembly demoStateTx 7 1 ⟨5, 1000⟩ rfl
  exact ⟨h.1, by decide, h.2.2.2.2.2 (by decide) (by decide)⟩

theorem applyTxs_append (id0 : Int) (now : Nat) (p q : List (TType × Int × String)) :
    ∀ st : DBState, applyTxs id0 now st (p ++ q)
      = (applyTxs id0 now st p).bind (fun st1 => applyTxs id0 now st1 q) := by
  induction p with
  | nil => intro st; rfl
  | cons x rest ih =>
    intro st
    obtain ⟨t, v, d⟩ := x
    simp only [List.cons_append, applyTxs]
    cases hp : (process_transaction st id0 v t d now).2 with
    | none => rfl
    | some r => exact ih _

theorem applyTxs_ok (id0 : Int) (now : Nat) :
    ∀ (txs : List (TType × Int × String)) (st : DBState) (a : Account),
      st.accounts id0 = some a →
      (∀ x ∈ txs, 0 < x.2.1) →
      -a.account_limit ≤ a.balance →
      (applyTxs id0 now st txs).isSome = true →
      ∃ st' a', applyTxs id0 now st txs = some st' ∧ st'.accounts id0 = some a' ∧
        a'.account_limit = a.account_limit ∧
        a'.balance = a.balance + sumCredits txs - sumDebits txs ∧
        -a'.account_limit ≤ a'.balance := by
  intro txs
  induction txs with
  | nil =>
    intro st a ha _ hinv _
    refine ⟨st, a, rfl, ha, rfl, ?_, hinv⟩
    simp [sumCredits, sumDebits]
  | cons x rest ih =>
    intro st a ha hv hinv h
    obtain ⟨t, v, d⟩ := x
    have hvx : 0 < v := hv (t, v, d) (List.mem_cons_self _ _)
    by_cases hc : t = TType.c ∨ -a.account_limit ≤ a.balance - v
    · have hok := process_transaction_ok st id0 v t d now a ha hc
      have hstep : applyTxs id0 now st ((t, v, d) :: rest)
          = applyTxs id0 now (process_transaction st id0 v t d now).1 rest := by
        simp only [applyTxs]
        rw [hok]
      have ha1 : (process_transaction st id0 v t d now).1.accounts id0
          = some { a with balance := a.balance + delta t v } := by
        rw [hok]
        dsimp only
        rw [sqlUpdateBalance_self, ha]
        rfl
      have hinv1 : -({ a with balance := a.balance + delta t v } : Account).account_limit
          ≤ ({ a with balance := a.balance + delta t v } : Account).balance := by
        dsimp only
        cases t with
        | c => simp only [delta]; omega
        | d =>
          have : -a.account_limit ≤ a.balance - v := by
            rcases hc with hc | hc
            · exact absurd hc (by simp)
            · exact hc
          simp only [delta]; omega
      have hrest : (applyTxs id0 now (process_transaction st id0 v t d now).1 rest).isSome
          = true := by rw [← hstep]; exact h
      obtain ⟨st', a', h1, h2, h3, h4, h5⟩ :=
        ih (process_transaction st id0 v t d now).1 _ ha1
          (fun x hx => hv x (List.mem_cons_of_mem _ hx)) hinv1 hrest
      refine ⟨st', a', by rw [hstep]; exact h1, h2, by simpa using h3, ?_, h5⟩
      rw [h4]
      cases t with
      | c => simp only [delta, sumCredits, sumDebits]; ring
      | d => simp only [delta, sumCredits, sumDebits]; ring
    · exfalso
      have hrej := process_transaction_rejected st id0 v t d now a ha hc
      have : applyTxs id0 now st ((t, v, d) :: rest) = none := by
        simp only [applyTxs]
        rw [hrej]
      rw [this] at h
      exact Bool.noConfusion h

/-- **C7**: for every account and every sequence of transaction requests that
all succeed through `process_transaction`, the resulting balance equals the
starting balance plus the sum of credited amounts minus the sum of debited
amounts, and `balance >= -account_limit` holds after every step (i.e. after
every prefix of the sequence), given positive amounts and an initially
legal balance. -/
theorem c7_sequence_of_transactions (st : DBState) (id0 : Int) (now : Nat)
    (txs : List (TType × Int × String)) (a : Account)
    (ha : st.accounts id0 = some a)
    (hv : ∀ x ∈ txs, 0 < x.2.1)
    (hinv : -a.account_limit ≤ a.balance)
    (h : (applyTxs id0 now st txs).isSome = true) :
    (∃ st' a', applyTxs id0 now st txs = some st' ∧ st'.accounts id0 = some a' ∧
      a'.account_limit = a.account_limit ∧
      a'.balance = a.balance + sumCredits txs - sumDebits txs ∧
      -a'.account_limit ≤ a'.balance) ∧
    (∀ p q, txs = p ++ q →
      ∃ stp ap, applyTxs id0 now st p = some stp ∧ stp.accounts id0 = some ap ∧
        ap.account_limit = a.account_limit ∧
        ap.balance = a.balance + sumCredits p - sumDebits p ∧
        -ap.account_limit ≤ ap.balance) := by
  refine ⟨applyTxs_ok id0 now txs st a ha hv hinv h, ?_⟩
  intro p q hpq
  subst hpq
  have hs := applyTxs_append id0 now p q st
  have hps : (applyTxs id0 now st p).isSome = true := by
    cases hgp : applyTxs id0 now st p with
    | none => rw [hs, hgp] at h; exact absurd h (by simp)
    | some s => rfl
  exact applyTxs_ok id0 now p st a ha
    (fun x hx => hv x (List.mem_append_left q hx)) hinv hps

theorem c7_sequence_of_transactions_witness :
    ∃ st' a', applyTxs 1 0 demoState [(TType.c, 10, "a"), (TType.d, 5, "b")] = some st' ∧
      st'.accounts 1 = some a' ∧ a'.balance = 5 ∧ a'.account_limit = 1000 := by
  have h := c7_sequence_of_transactions demoState 1 0
    [(TType.c, 10, "a"), (TType.d, 5, "b")] ⟨0, 1000⟩ rfl (by decide) (by decide) (by decide)
  obtain ⟨⟨st', a', h1, h2, h3, h4, _⟩, -⟩ := h
  refine ⟨st', a', h1, h2, ?_, h3.trans rfl⟩
  rw [h4]
  decide

theorem strToTType_c : strToTType "c" = TType.c := by decide

theorem getExtratoInline_not_found (st : DBState) (now : Nat) (j : JSNum)
    (h : st.accounts (toInt32 j) = none) :
    getExtratoInline st now j = ⟨404, none, none, none, []⟩ := by
  simp [getExtratoInline, JSNum.isInteger, h]

theorem getExtratoStored_not_found (st : DBState) (now : Nat) (n : Int)
    (h : st.accounts n = none) :
    getExtratoStored st now (JSNum.int n) = ⟨404, none, none, none, []⟩ := by
  simp only [getExtratoStored]
  split_ifs with hr
  · simp [get_extrato, h]
  · rfl

/-- **C4** counterexample: in the stored-procedure variant, posting a valid
transaction for the nonexistent account id 3 yields status 422, not the 404
the claim requires. -/
theorem c4_unknown_id_counterexample :
    demoState.accounts 3 = none ∧
    (postTransacoesStored demoState 0 (JSNum.int 3)
      ⟨some (.int 10), some "c", some "x"⟩).status = 422 ∧
    (postTransacoesStored demoState 0 (JSNum.int 3)
      ⟨some (.int 10), some "c", some "x"⟩).status ≠ 404 := by
  decide

/-- **C4** (amended): posting a transaction for an account id that does not
exist creates no ledger entry in either variant, and the inline-SQL variant
returns 404; the stored-procedure variant instead returns 422 (whether the
id fails its 1..5 range validation or the account row is missing).
Requesting a statement for an unknown account id returns 404 in both
variants. -/
theorem c4_unknown_id (st : DBState) (now : Nat) (n v : Int) (desc : String) (j : JSNum)
    (hv : 0 < v) (hd : 1 ≤ desc.length ∧ desc.length ≤ 10)
    (hn : st.accounts n = none) (hj : st.accounts (toInt32 j) = none) :
    (postTransacoesInline st now (.int n) ⟨some (.int v), some "c", some desc⟩).status = 404 ∧
    (postTransacoesInline st now (.int n) ⟨some (.int v), some "c", some desc⟩).st.transactions
      = st.transactions ∧
    (postTransacoesStored st now (.int n) ⟨some (.int v), some "c", some desc⟩).status = 422 ∧
    (postTransacoesStored st now (.int n) ⟨some (.int v), some "c", some desc⟩).st.transactions
      = st.transactions ∧
    (getExtratoInline st now j).status = 404 ∧
    (getExtratoStored st now (JSNum.int n)).status = 404 := by
  refine ⟨?_, ?_, ?_, ?_, ?_, ?_⟩
  · simp only [postTransacoesInline]
    split_ifs with hcond
    · rw [strToTType_c, inlineTxCore_not_found st now n v TType.c desc hn]
    · exact absurd ⟨hv, Or.inl trivial, hd.1, hd.2⟩ hcond
  · simp only [postTransacoesInline]
    split_ifs with hcond
    · rw [strToTType_c, inlineTxCore_not_found st now n v TType.c desc hn]
    · rfl
  · simp only [postTransacoesStored]
    split_ifs with hcond
    · rw [strToTType_c, process_transaction_not_found st n v TType.c desc now hn]
    · rfl
  · simp only [postTransacoesStored]
    split_ifs with hcond
    · rw [strToTType_c, process_transaction_not_found st n v TType.c desc now hn]
    · rfl
  · rw [getExtratoInline_not_found st now j hj]
  · rw [getExtratoStored_not_found st now n hn]

theorem c4_unknown_id_witness :
    (postTransacoesInline demoState 0 (.int 3) ⟨some (.int 10), some "c", some "x"⟩).status
      = 404 ∧
    (postTransacoesInline demoState 0 (.int 3)
      ⟨some (.int 10), some "c", some "x"⟩).st.transactions = demoState.transactions ∧
    (postTransacoesStored demoState 0 (.int 3) ⟨some (.int 10), some "c", some "x"⟩).status
      = 422 ∧
    (getExtratoInline demoState 0 (JSNum.int 3)).status = 404 ∧
    (getExtratoStored demoState 0 (JSNum.int 3)).status = 404 := by
  have h := c4_unknown_id demoState 0 3 10 "x" (JSNum.int 3)
    (by decide) (by decide) (by decide) (by decide)
  exact ⟨h.1, h.2.1, h.2.2.1, h.2.2.2.2.1, h.2.2.2.2.2⟩

theorem bodyValid_iff (v : Int) (t desc : String) :
    bodyValid ⟨some (.int v), some t, some desc⟩ = true ↔
      (0 < v ∧ (t = "c" ∨ t = "d") ∧ 1 ≤ desc.length ∧ desc.length ≤ 10) := by
  simp [bodyValid, validValor, validDescricao, and_assoc]

theorem postTransacoesInline_invalid (st : DBState) (now : Nat) (idParam : JSNum) (b : ReqBody)
    (h : inlineReqValid idParam b = false) :
    postTransacoesInline st now idParam b = ⟨st, 422, none, none, false⟩ := by
  obtain ⟨valor, tipo, descricao⟩ := b
  cases idParam with
  | nan => rfl
  | inf => rfl
  | frac t => rfl
  | int n =>
    cases valor with
    | none => rfl
    | some jn =>
      cases jn with
      | nan => rfl
      | inf => rfl
      | frac t => rfl
      | int v =>
        cases tipo with
        | none => rfl
        | some t =>
          cases descricao with
          | none => rfl
          | some desc =>
            simp only [postTransacoesInline]
            split_ifs with hcond
            · exfalso
              have hbv := (bodyValid_iff v t desc).mpr hcond
              simp [inlineReqValid, JSNum.isInteger, hbv] at h
            · rfl

theorem postTransacoesInline_valid (st : DBState) (now : Nat) (idParam : JSNum) (b : ReqBody)
    (h : inlineReqValid idParam b = true) :
    (postTransacoesInline st now idParam b).processorInvoked = true := by
  obtain ⟨valor, tipo, descricao⟩ := b
  cases idParam with
  | nan => exact absurd h (by simp [inlineReqValid, JSNum.isInteger])
  | inf => exact absurd h (by simp [inlineReqValid, JSNum.isInteger])
  | frac t => exact absurd h (by simp [inlineReqValid, JSNum.isInteger])
  | int n =>
    cases valor with
    | none => exact absurd h (by simp [inlineReqValid, bodyValid, validValor])
    | some jn =>
      cases jn with
      | nan => exact absurd h (by simp [inlineReqValid, bodyValid, validValor])
      | inf => exact absurd h (by simp [inlineReqValid, bodyValid, validValor])
      | frac t => exact absurd h (by simp [inlineReqValid, bodyValid, validValor])
      | int v =>
        cases tipo with
        | none => exact absurd h (by simp [inlineReqValid, bodyValid])
        | some t =>
          cases descricao with
          | none => exact absurd h (by simp [inlineReqValid, bodyValid, validDescricao])
          | some desc =>
            simp only [postTransacoesInline]
            split_ifs with hcond
            · cases hr : (inlineTxCore st now n v (strToTType t) desc).2 <;> rfl
            · exfalso
              have hbv : bodyValid ⟨some (.int v), some t, some desc⟩ = true := by
                simp [inlineReqValid, JSNum.isInteger] at h
                exact h
              exact hcond ((bodyValid_iff v t desc).mp hbv)

theorem storedReqValid_iff (n v : Int) (t desc : String) :
    storedReqValid (JSNum.int n) ⟨some (.int v), some t, some desc⟩ = true ↔
      (0 < n ∧ n ≤ 5 ∧ 0 < v ∧ (t = "c" ∨ t = "d") ∧ 1 ≤ desc.length ∧ desc.length ≤ 10) := by
  simp [storedReqValid, storedIdValid, bodyValid, validValor, validDescricao, and_assoc]

theorem postTransacoesStored_invalid (st : DBState) (now : Nat) (idParam : JSNum) (b : ReqBody)
    (h : storedReqValid idParam b = false) :
    postTransacoesStored st now idParam b = ⟨st, 422, none, none, false⟩ := by
  obtain ⟨valor, tipo, descricao⟩ := b
  cases idParam with
  | nan => rfl
  | inf => rfl
  | frac t => rfl
  | int n =>
    cases valor with
    | none => rfl
    | some jn =>
      cases jn with
      | nan => rfl
      | inf => rfl
      | frac t => rfl
      | int v =>
        cases tipo with
        | none => rfl
        | some t =>
          cases descricao with
          | none => rfl
          | some desc =>
            simp only [postTransacoesStored]
            split_ifs with hcond
            · exfalso
              rw [(storedReqValid_iff n v t desc).mpr hcond] at h
              exact Bool.noConfusion h
            · rfl

theorem postTransacoesStored_valid (st : DBState) (now : Nat) (idParam : JSNum) (b : ReqBody)
    (h : storedReqValid idParam b = true) :
    (postTransacoesStored st now idParam b).processorInvoked = true := by
  obtain ⟨valor, tipo, descricao⟩ := b
  cases idParam with
  | nan => exact absurd h (by simp [storedReqValid, storedIdValid])
  | inf => exact absurd h (by simp [storedReqValid, storedIdValid])
  | frac t => exact absurd h (by simp [storedReqValid, storedIdValid])
  | int n =>
    cases valor with
    | none => exact absurd h (by simp [storedReqValid, bodyValid, validValor])
    | some jn =>
      cases jn with
      | nan => exact absurd h (by simp [storedReqValid, bodyValid, validValor])
      | inf => exact absurd h (by simp [storedReqValid, bodyValid, validValor])
      | frac t => exact absurd h (by simp [storedReqValid, bodyValid, validValor])
      | int v =>
        cases tipo with
        | none => exact absurd h (by simp [storedReqValid, bodyValid])
        | some t =>
          cases descricao with
          | none => exact absurd h (by simp [storedReqValid, bodyValid, validDescricao])
          | some desc =>
            simp only [postTransacoesStored]
            split_ifs with hcond
            · cases hr : (process_transaction st n v (strToTType t) desc now).2 with
              | none => rfl
              | some r => obtain ⟨s, l⟩ := r; rfl
            · exact absurd ((storedReqValid_iff n v t desc).mp h) hcond

/-- **C5** counterexample: the inline-SQL POST handler performs no range
check on the id: for the out-of-range id 100 (the configured range being
1..5, as the validation of the stored-procedure variant shows) with a valid
body, the handler does not return 422 at validation but invokes the
transaction-processing code, which answers 404. -/
theorem c5_validation_counterexample :
    (postTransacoesInline demoState 0 (JSNum.int 100)
      ⟨some (.int 10), some "c", some "x"⟩).processorInvoked = true ∧
    (postTransacoesInline demoState 0 (JSNum.int 100)
      ⟨some (.int 10), some "c", some "x"⟩).status = 404 ∧
    storedIdValid (JSNum.int 100) = false := by
  decide

/-- **C5** (amended): a POST handler returns 422 without invoking the
transaction-processing code exactly when its own validation fails — for the
stored-procedure variant: the id is not an integer in 1..5, `valor` is not a
positive integer, `tipo` is neither `'c'` nor `'d'`, or `descricao` is not a
string of length 1..10; for the inline-SQL variant the same without any
range condition on the id.  A validation failure leaves the store untouched,
and a validated request always reaches the transaction-processing code. -/
theorem c5_validation_iff (st : DBState) (now : Nat) (idParam : JSNum) (b : ReqBody) :
    (((postTransacoesInline st now idParam b).status = 422 ∧
      (postTransacoesInline st now idParam b).processorInvoked = false)
      ↔ inlineReqValid idParam b = false) ∧
    (inlineReqValid idParam b = false → (postTransacoesInline st now idParam b).st = st) ∧
    (inlineReqValid idParam b = true →
      (postTransacoesInline st now idParam b).processorInvoked = true) ∧
    (((postTransacoesStored st now idParam b).status = 422 ∧
      (postTransacoesStored st now idParam b).processorInvoked = false)
      ↔ storedReqValid idParam b = false) ∧
    (storedReqValid idParam b = false → (postTransacoesStored st now idParam b).st = st) ∧
    (storedReqValid idParam b = true →
      (postTransacoesStored st now idParam b).processorInvoked = true) := by
  refine ⟨⟨?_, ?_⟩, ?_, postTransacoesInline_valid st now idParam b,
          ⟨?_, ?_⟩, ?_, postTransacoesStored_valid st now idParam b⟩
  · rintro ⟨-, h2⟩
    cases hval : inlineReqValid idParam b with
    | false => rfl
    | true =>
      rw [postTransacoesInline_valid st now idParam b hval] at h2
      exact absurd h2 (by decide)
  · intro hval
    rw [postTransacoesInline_invalid st now idParam b hval]
    exact ⟨rfl, rfl⟩
  · intro hval
    rw [postTransacoesInline_invalid st now idParam b hval]
  · rintro ⟨-, h2⟩
    cases hval : storedReqValid idParam b with
    | false => rfl
    | true =>
      rw [postTransacoesStored_valid st now idParam b hval] at h2
      exact absurd h2 (by decide)
  · intro hval
    rw [postTransacoesStored_invalid st now idParam b hval]
    exact ⟨rfl, rfl⟩
  · intro hval
    rw [postTransacoesStored_invalid st now idParam b hval]

theorem c5_validation_iff_witness :
    ((postTransacoesInline demoState 0 JSNum.nan ⟨some (.int 10), some "c", some "x"⟩).st
      = demoState) ∧
    (postTransacoesInline demoState 0 (JSNum.int 1)
      ⟨some (.int 10), some "c", some "x"⟩).processorInvoked = true ∧
    (postTransacoesStored demoState 0 (JSNum.int 1)
      ⟨some (.int 10), some "c", some "x"⟩).processorInvoked = true := by
  have h1 := c5_validation_iff demoState 0 JSNum.nan ⟨some (.int 10), some "c", some "x"⟩
  have h2 := c5_validation_iff demoState 0 (JSNum.int 1) ⟨some (.int 10), some "c", some "x"⟩
  exact ⟨h1.2.1 (by decide), h2.2.2.1 (by decide), h2.2.2.2.2.2 (by decide)⟩

end Rinha
